import Mathlib

/-!
Verification of the multi-version OCC transaction core in txn.h.

The C++ source is shallowly embedded over Nat:
* 64-bit machine words (`version_t`, `tid_t`) are Nat, with `% 2 ^ 64`
  inserted exactly where the C++ arithmetic can wrap;
* the singly linked `next` chain of `logical_node` cells is a `List`;
* payload buffers (`value_start`) are `List Nat` of byte values;
* the concurrency scaffolding (`stable_version` spin loops,
  `check_version` re-reads, compare-and-swap) is evaluated in the
  sequential semantics the claims quantify over: on an unlocked cell whose
  header does not change during the operation, `stable_version` returns
  `hdr`, `check_version` succeeds, and the retry loops run once.
-/

set_option maxRecDepth 4096

/-- Bitwise complement on a 64-bit word: C++ `~m` at type `uint64_t`.
For masks `m` below `2 ^ 64` this is `(2 ^ 64 - 1) ^^^ m`. -/
def compl64 (m : Nat) : Nat := (2 ^ 64 - 1) ^^^ m

/-- Header-mask constants of `logical_node` (txn.h lines 140-152).
`HDR_LOCKED_MASK = 0x1`. -/
def logical_node.HDR_LOCKED_MASK : Nat := 1

/-- `HDR_DELETING_MASK = 0x1 << 1` (txn.h line 143). -/
def logical_node.HDR_DELETING_MASK : Nat := 1 <<< 1

/-- `HDR_ENQUEUED_MASK = 0x1 << 2` (txn.h line 146). -/
def logical_node.HDR_ENQUEUED_MASK : Nat := 1 <<< 2

/-- `HDR_LATEST_MASK = 0x1 << 3` (txn.h line 149). -/
def logical_node.HDR_LATEST_MASK : Nat := 1 <<< 3

/-- `HDR_VERSION_SHIFT = 4` (txn.h line 151). -/
def logical_node.HDR_VERSION_SHIFT : Nat := 4

/-- `HDR_VERSION_MASK = ((version_t)-1) << HDR_VERSION_SHIFT` (txn.h
line 152), computed in 64-bit arithmetic. -/
def logical_node.HDR_VERSION_MASK : Nat :=
  ((2 ^ 64 - 1) <<< logical_node.HDR_VERSION_SHIFT) % 2 ^ 64

/-- `IsLocked(v) = v & HDR_LOCKED_MASK` (txn.h lines 211-215), as the Bool
the C++ implicit conversion produces. -/
def logical_node.IsLocked (v : Nat) : Bool :=
  v &&& logical_node.HDR_LOCKED_MASK != 0

/-- `IsDeleting(v) = v & HDR_DELETING_MASK` (txn.h lines 249-253). -/
def logical_node.IsDeleting (v : Nat) : Bool :=
  v &&& logical_node.HDR_DELETING_MASK != 0

/-- `IsEnqueued(v) = v & HDR_ENQUEUED_MASK` (txn.h lines 270-274). -/
def logical_node.IsEnqueued (v : Nat) : Bool :=
  v &&& logical_node.HDR_ENQUEUED_MASK != 0

/-- `IsLatest(v) = v & HDR_LATEST_MASK` (txn.h lines 293-297). -/
def logical_node.IsLatest (v : Nat) : Bool :=
  v &&& logical_node.HDR_LATEST_MASK != 0

/-- `Version(v) = (v & HDR_VERSION_MASK) >> HDR_VERSION_SHIFT` (txn.h
lines 309-313). -/
def logical_node.Version (v : Nat) : Nat :=
  (v &&& logical_node.HDR_VERSION_MASK) >>> logical_node.HDR_VERSION_SHIFT

/-- Header after `lock()` (txn.h lines 217-227) succeeds: the
compare-and-swap publishes `v | HDR_LOCKED_MASK`.  The CAS can only
succeed from an unlocked header; that precondition appears where the
operation is used. -/
def logical_node.lock (v : Nat) : Nat := v ||| logical_node.HDR_LOCKED_MASK

/-- Header after `unlock()` (txn.h lines 229-241):
`n = Version(v); v &= ~HDR_VERSION_MASK;
v |= ((n + 1) << HDR_VERSION_SHIFT) & HDR_VERSION_MASK;
v &= ~HDR_LOCKED_MASK; hdr = v`, all at `uint64_t`. -/
def logical_node.unlock (v : Nat) : Nat :=
  let n := logical_node.Version v
  let v1 := v &&& compl64 logical_node.HDR_VERSION_MASK
  let v2 := v1 ||| (((n + 1) <<< logical_node.HDR_VERSION_SHIFT) % 2 ^ 64
      &&& logical_node.HDR_VERSION_MASK)
  v2 &&& compl64 logical_node.HDR_LOCKED_MASK

/-- Header after `mark_deleting()` (txn.h lines 255-262):
`hdr |= HDR_DELETING_MASK`.  Preconditions (the INVARIANT lines): locked,
not enqueued, not deleting. -/
def logical_node.mark_deleting (v : Nat) : Nat :=
  v ||| logical_node.HDR_DELETING_MASK

/-- Header after `set_enqueued(enqueued)` (txn.h lines 276-285).
Preconditions: locked, not deleting. -/
def logical_node.set_enqueued (enqueued : Bool) (v : Nat) : Nat :=
  if enqueued then v ||| logical_node.HDR_ENQUEUED_MASK
  else v &&& compl64 logical_node.HDR_ENQUEUED_MASK

/-- Header after `set_latest(latest)` (txn.h lines 299-307).
Precondition: locked. -/
def logical_node.set_latest (latest : Bool) (v : Nat) : Nat :=
  if latest then v ||| logical_node.HDR_LATEST_MASK
  else v &&& compl64 logical_node.HDR_LATEST_MASK

/-- One version cell (txn.h lines 135-172).  The `next` pointer is not a
field: a chain of cells is a `List logical_node`, newest first.  `hdr` is
the 64-bit header word, `version` the cell's tid, `value_start` the
payload buffer (`alloc_size` bytes; bytes past `size` are junk the reader
never copies). -/
structure logical_node where
  hdr : Nat
  version : Nat
  size : Nat
  alloc_size : Nat
  value_start : List Nat
deriving DecidableEq, Repr

/-- `is_not_behind(t) = version <= t` (txn.h lines 358-362). -/
def logical_node.is_not_behind (n : logical_node) (t : Nat) : Bool :=
  n.version ≤ t

/-- `record_at(t, start_t, r, require_latest)` (txn.h lines 364-381) in
the sequential semantics: the chain argument lists this cell and the cells
reachable through `next`.  On an unlocked, unchanging chain
`stable_version()` returns `hdr`, `check_version` succeeds and the
`retry` loop runs once, so the function reduces to: if `version <= t`
then (fail if the captured header must be LATEST but is not, else return
the tid and the first `size` payload bytes), else recurse into `next`
with `require_latest = false`.  `none` models returning `false` with the
out-parameters untouched. -/
def logical_node.record_at (t : Nat) (chain : List logical_node)
    (require_latest : Bool) : Option (Nat × List Nat) :=
  match chain with
  | [] => none
  | n :: rest =>
    if n.is_not_behind t then
      if require_latest && !logical_node.IsLatest n.hdr then none
      else some (n.version, n.value_start.take n.size)
    else logical_node.record_at t rest false

/-- `stable_read(t, start_t, r) = record_at(t, start_t, r, true)` (txn.h
lines 393-397), reading the chain `n :: rest` whose entry cell is `n`. -/
def logical_node.stable_read (t : Nat) (n : logical_node)
    (rest : List logical_node) : Option (Nat × List Nat) :=
  logical_node.record_at t (n :: rest) true

/-- `stable_is_latest_version(t)` (txn.h lines 405-421) in the sequential
semantics on a static cell: `try_stable_version(v, 16)` spins at most 16
times, so on a locked (static) header it fails and the function returns
false; on an unlocked header it captures `v = hdr`, `check_version(v)`
succeeds, and the result is `IsLatest(v) && is_not_behind(t)`. -/
def logical_node.stable_is_latest_version (n : logical_node) (t : Nat) :
    Bool :=
  if logical_node.IsLocked n.hdr then false
  else
    let ret := logical_node.IsLatest n.hdr && n.is_not_behind t
    if ret then true else false

/-- `util::round_up<size_t, 16>` as used by `alloc` (txn.h lines
506-513): the allocation size is rounded up to a multiple of 16.
`sizeof(logical_node)` (32 bytes packed) is itself a multiple of 16, so
the rounded payload capacity `alloc_sz - sizeof(logical_node)` equals
`round_up_16` of the payload size. -/
def round_up_16 (n : Nat) : Nat := (n + 15) / 16 * 16

/-- `alloc(version, value, sz, next, set_latest)` (txn.h lines 506-513)
building on the private constructor at lines 188-196: the new cell starts
with header `set_latest ? HDR_LATEST_MASK : 0`, the given tid, `size =
sz`, capacity rounded up to 16, and `sz` bytes copied from `value`.
Bytes of the buffer past the copied `sz` are uninitialized in C++; the
model fills them with 0, and no operation reads them.  The `next` link is
supplied by the caller as the tail of the resulting chain. -/
def logical_node.alloc (version : Nat) (value : List Nat) (sz : Nat)
    (set_latest : Bool) : logical_node :=
  { hdr := if set_latest then logical_node.HDR_LATEST_MASK else 0
    version := version
    size := sz
    alloc_size := round_up_16 sz
    value_start := value.take sz ++ List.replicate (round_up_16 sz - sz) 0 }

/-- `memcpy(&value_start[0], r, sz)` on a buffer modelled as a list: the
first `sz` bytes come from `r`, the rest of the buffer is unchanged. -/
def memcpy_buf (buf r : List Nat) (sz : Nat) : List Nat :=
  r.take sz ++ buf.drop sz

/-- `write_record_at(txn, t, r, sz)` (txn.h lines 453-495).  `self` is
the cell the method runs on and `next` the chain behind it.  The result
packs the C++ return value and the heap effect:
* first component: the returned `bool` (`true` iff the number of logical
  versions grew);
* second component: the returned replacement node, `none` for `NULL`;
  in the `can_overwrite` realloc case the replacement's chain is `next`,
  in the spill realloc case it is `self :: next` (the code passes `next`
  resp. `this` as the new node's `next`);
* third component: `self` after the call, together with the chain now
  behind it. -/
def logical_node.write_record_at
    (can_overwrite_record_tid : Nat → Nat → Bool) (t : Nat)
    (r : List Nat) (sz : Nat) (self : logical_node)
    (next : List logical_node) :
    Bool × Option logical_node × logical_node × List logical_node :=
  if can_overwrite_record_tid self.version t then
    if sz ≤ self.alloc_size then
      (false, none,
        { self with
            version := t
            size := sz
            value_start := memcpy_buf self.value_start r sz }, next)
    else
      (false, some (logical_node.alloc t r sz true),
        { self with hdr := logical_node.set_latest false self.hdr }, next)
  else
    if sz ≤ self.alloc_size then
      (true, none,
        { self with
            version := t
            size := sz
            value_start := memcpy_buf self.value_start r sz },
        logical_node.alloc self.version self.value_start sz false :: next)
    else
      (true, some (logical_node.alloc t r sz true),
        { self with hdr := logical_node.set_latest false self.hdr }, next)

/-- `transaction::can_overwrite_record_tid` (txn.h lines 124-128): the
base transaction never allows an in-place overwrite. -/
def transaction.can_overwrite_record_tid (_prev _cur : Nat) : Bool := false

/-- `transaction_proto1` declares no override of
`can_overwrite_record_tid` (txn.h lines 792-816), so protocol P1 inherits
the base definition. -/
def transaction_proto1.can_overwrite_record_tid (prev cur : Nat) : Bool :=
  transaction.can_overwrite_record_tid prev cur

/-- Transaction states (txn.h line 51). -/
inductive txn_state where
  | TXN_EMBRYO
  | TXN_ACTIVE
  | TXN_COMMITED
  | TXN_ABRT
deriving DecidableEq, Repr

/-- `ensure_active()` (txn.h lines 637-644).  The result pairs the state
after the call with whether `transaction_unusable_exception` is thrown;
the throw happens before any assignment, so in that case the state is
returned unchanged. -/
def transaction.ensure_active (state : txn_state) : txn_state × Bool :=
  match state with
  | .TXN_EMBRYO => (.TXN_ACTIVE, false)
  | .TXN_ACTIVE => (.TXN_ACTIVE, false)
  | s => (s, true)

/-- Lexicographic byte-string order: `std::string` `operator<` on byte
strings, and likewise the `varkey` comparison used by `key_in_range`
(varkey wraps the same bytes; varkey.h is not under src/, its order is
modelled as the spec's lexicographic byte order). -/
def str_lt : List Nat → List Nat → Bool
  | [], [] => false
  | [], _ :: _ => true
  | _ :: _, [] => false
  | a :: as, b :: bs =>
    if a < b then true else if b < a then false else str_lt as bs

/-- Non-strict form of the byte-string order: `x <= y` iff `!(y < x)`. -/
def str_le (x y : List Nat) : Bool := !str_lt y x

/-- `key_range_t` (txn.h lines 684-743): the range `[a, b)`, where
`has_b = false` means no upper bound. -/
structure key_range_t where
  a : List Nat
  has_b : Bool
  b : List Nat
deriving DecidableEq, Repr

/-- `key_range_t::is_empty_range` (txn.h lines 720-724):
`has_b && a >= b`. -/
def key_range_t.is_empty_range (r : key_range_t) : Bool :=
  r.has_b && str_le r.b r.a

/-- `key_range_t::contains(that)` (txn.h lines 726-736):
`if (a > that.a) return false; if (!has_b) return true;
if (!that.has_b) return false; return b >= that.b;`. -/
def key_range_t.contains (self that : key_range_t) : Bool :=
  if str_lt that.a self.a then false
  else if !self.has_b then true
  else if !that.has_b then false
  else str_le that.b self.b

/-- `key_range_t::key_in_range(k)` (txn.h lines 738-742):
`varkey(a) <= k && (!has_b || k < varkey(b))`. -/
def key_range_t.key_in_range (self : key_range_t) (k : List Nat) : Bool :=
  str_le self.a k && (!self.has_b || str_lt k self.b)

/-- Modelled from the spec: `CoreBits = NMAXCOREBITS` and
`NMaxCores = NMAXCORES` come from macros.h, which is not among the
sources.  The spec says `CoreBits` is sized so that
`2 ^ CoreBits >= NMaxCores`, and the `_static_assert`s in `MakeTid`
(txn.h lines 927-929) force the three masks to tile the 64-bit word
exactly, which holds precisely when `NMaxCores = 2 ^ CoreBits`.  The
definitions below therefore take `CoreBits` as a parameter with
`NMaxCores CoreBits = 2 ^ CoreBits`; the layout comment at txn.h lines
823-825 places the core field in bits 0..10, giving `CoreBits = 10` for
concrete instances. -/
def transaction_proto2.NMaxCores (CoreBits : Nat) : Nat := 2 ^ CoreBits

/-- `CoreMask = NMaxCores - 1` (txn.h line 915). -/
def transaction_proto2.CoreMask (CoreBits : Nat) : Nat :=
  transaction_proto2.NMaxCores CoreBits - 1

/-- `NumIdShift = CoreBits` (txn.h line 917). -/
def transaction_proto2.NumIdShift (CoreBits : Nat) : Nat := CoreBits

/-- `NumIdMask = ((((uint64_t)1) << 27) - 1) << NumIdShift` (txn.h line
918), in 64-bit arithmetic. -/
def transaction_proto2.NumIdMask (CoreBits : Nat) : Nat :=
  (((1 <<< 27) - 1) <<< transaction_proto2.NumIdShift CoreBits) % 2 ^ 64

/-- `EpochShift = NumIdShift + 27` (txn.h line 920). -/
def transaction_proto2.EpochShift (CoreBits : Nat) : Nat :=
  transaction_proto2.NumIdShift CoreBits + 27

/-- `EpochMask = ((uint64_t)-1) << EpochShift` (txn.h line 921), in
64-bit arithmetic. -/
def transaction_proto2.EpochMask (CoreBits : Nat) : Nat :=
  ((2 ^ 64 - 1) <<< transaction_proto2.EpochShift CoreBits) % 2 ^ 64

/-- `CoreId(v) = v & CoreMask` (txn.h lines 836-840). -/
def transaction_proto2.CoreId (CoreBits v : Nat) : Nat :=
  v &&& transaction_proto2.CoreMask CoreBits

/-- `NumId(v) = (v & NumIdMask) >> NumIdShift` (txn.h lines 842-846). -/
def transaction_proto2.NumId (CoreBits v : Nat) : Nat :=
  (v &&& transaction_proto2.NumIdMask CoreBits) >>>
    transaction_proto2.NumIdShift CoreBits

/-- `EpochId(v) = (v & EpochMask) >> EpochShift` (txn.h lines
848-852). -/
def transaction_proto2.EpochId (CoreBits v : Nat) : Nat :=
  (v &&& transaction_proto2.EpochMask CoreBits) >>>
    transaction_proto2.EpochShift CoreBits

/-- `MakeTid(core_id, num_id, epoch_id) = core_id | (num_id <<
NumIdShift) | (epoch_id << EpochShift)` (txn.h lines 923-931), in 64-bit
arithmetic. -/
def transaction_proto2.MakeTid (CoreBits core_id num_id epoch_id : Nat) :
    Nat :=
  (core_id |||
    (num_id <<< transaction_proto2.NumIdShift CoreBits) % 2 ^ 64 |||
    (epoch_id <<< transaction_proto2.EpochShift CoreBits) % 2 ^ 64) % 2 ^ 64

/-- `transaction_proto2::can_overwrite_record_tid(prev, cur)` (txn.h
lines 868-874): `EpochId(prev) == EpochId(cur)`.  The INVARIANT lines are
debug assertions with no effect on the returned value. -/
def transaction_proto2.can_overwrite_record_tid (CoreBits prev cur : Nat) :
    Bool :=
  transaction_proto2.EpochId CoreBits prev ==
    transaction_proto2.EpochId CoreBits cur

/-- Epoch extractor prescribed by the spec sentence C4 tests: with the
epoch field in the top 37 bits of the 64-bit TID, the epoch of `v` is
`v >> 27`.  This definition follows the spec text, not the code, and
exists only to be compared with `transaction_proto2.EpochId`. -/
def transaction_proto2.EpochIdSpecTop37 (v : Nat) : Nat := v >>> 27

/-- The byte-string order is irreflexive: `s < s` is false. -/
theorem str_lt_irrefl (s : List Nat) : str_lt s s = false := by
  induction s with
  | nil => rfl
  | cons a as ih => simp [str_lt, ih]

/-- C9: `ensure_active()` moves Embryo to Active and returns normally,
returns normally leaving Active unchanged, and throws
`transaction_unusable_exception` (second component `true`) leaving the
state unchanged on Committed and Aborted, so a resolved transaction
signals unusable and the Embryo-to-Active transition happens lazily at
the first operation. -/
theorem C9_ensure_active :
    transaction.ensure_active .TXN_EMBRYO = (.TXN_ACTIVE, false) ∧
    transaction.ensure_active .TXN_ACTIVE = (.TXN_ACTIVE, false) ∧
    transaction.ensure_active .TXN_COMMITED = (.TXN_COMMITED, true) ∧
    transaction.ensure_active .TXN_ABRT = (.TXN_ABRT, true) :=
  ⟨rfl, rfl, rfl, rfl⟩

/-- C5: the base `transaction::can_overwrite_record_tid` returns false on
every pair of tids, protocol P1 (which does not override it) therefore
also does, so under P1 every write spills; and
`transaction_proto2::can_overwrite_record_tid` returns true exactly when
the two tids have equal `EpochId`, so P2 never overwrites in place across
an epoch boundary. -/
theorem C5_can_overwrite_record_tid (CoreBits prev cur : Nat) :
    transaction.can_overwrite_record_tid prev cur = false ∧
    transaction_proto1.can_overwrite_record_tid prev cur = false ∧
    (transaction_proto2.can_overwrite_record_tid CoreBits prev cur = true ↔
      transaction_proto2.EpochId CoreBits prev =
        transaction_proto2.EpochId CoreBits cur) := by
  refine ⟨rfl, rfl, ?_⟩
  simp [transaction_proto2.can_overwrite_record_tid]

/-- C3, counterexample to the claim as stated: an unlocked LATEST cell
with tid 3 makes `stable_is_latest_version(5)` return true although its
tid differs from the argument 5, because the code tests
`is_not_behind` (`version <= t`), not equality. -/
theorem C3_counterexample :
    logical_node.stable_is_latest_version ⟨8, 3, 0, 0, []⟩ 5 = true ∧
    (⟨8, 3, 0, 0, []⟩ : logical_node).version ≠ 5 := by decide

/-- C3 as amended: for every unlocked cell and tid `t`,
`stable_is_latest_version(t)` returns true exactly when the cell carries
the LATEST bit and its tid is at most `t` (`is_not_behind`); equality of
the tids is not required. -/
theorem C3_stable_is_latest_version (n : logical_node) (t : Nat)
    (h : logical_node.IsLocked n.hdr = false) :
    logical_node.stable_is_latest_version n t = true ↔
      (logical_node.IsLatest n.hdr = true ∧ n.version ≤ t) := by
  unfold logical_node.stable_is_latest_version
  simp [h, logical_node.is_not_behind]

/-- Witness for C3: the amended theorem applied to a concrete unlocked
cell. -/
theorem C3_witness :
    logical_node.stable_is_latest_version ⟨8, 3, 0, 0, []⟩ 7 = true ↔
      (logical_node.IsLatest (8 : Nat) = true ∧ (3 : Nat) ≤ 7) :=
  C3_stable_is_latest_version ⟨8, 3, 0, 0, []⟩ 7 (by decide)

/-- C8, counterexample to the claim as stated: for the empty half-open
range `[0x62, 0x62)` the key equal to the lower bound is not in the
range, against the claim that a key equal to the lower bound is always in
the range. -/
theorem C8_counterexample :
    key_range_t.key_in_range ⟨[98], true, [98]⟩ [98] = false ∧
    (⟨[98], true, [98]⟩ : key_range_t).a = [98] := by decide

/-- C8 as amended: `contains` holds exactly when `a <= that.a` and
either there is no upper bound, or `that` has one and `b >= that.b`;
`key_in_range(k)` holds exactly when `a <= k` and `k` is below the upper
bound if there is one; hence a key equal to the upper bound is never in
the range, and a key equal to the lower bound is in the range provided
the range is non-empty (no upper bound, or `a < b`). -/
theorem C8_key_range (r s : key_range_t) (k : List Nat) :
    (key_range_t.contains r s = true ↔
      (str_le r.a s.a = true ∧
        (r.has_b = false ∨ (s.has_b = true ∧ str_le s.b r.b = true)))) ∧
    (key_range_t.key_in_range r k = true ↔
      (str_le r.a k = true ∧ (r.has_b = false ∨ str_lt k r.b = true))) ∧
    (r.has_b = true → key_range_t.key_in_range r r.b = false) ∧
    ((r.has_b = false ∨ str_lt r.a r.b = true) →
      key_range_t.key_in_range r r.a = true) := by
  refine ⟨?_, ?_, ?_, ?_⟩
  · unfold key_range_t.contains str_le
    cases h1 : str_lt s.a r.a <;> cases h2 : r.has_b <;>
      cases h3 : s.has_b <;> simp
  · unfold key_range_t.key_in_range str_le
    cases h2 : r.has_b <;> simp
  · intro h
    unfold key_range_t.key_in_range
    simp [h, str_lt_irrefl]
  · intro h
    unfold key_range_t.key_in_range str_le
    rcases h with h | h
    · simp [h, str_lt_irrefl]
    · simp [h, str_lt_irrefl]

/-- Witness for C8: the amended theorem applied to the concrete range
`[0x61, 0x63)` and the key `0x61` equal to its lower bound, discharging
the non-emptiness hypothesis. -/
theorem C8_witness :
    key_range_t.key_in_range ⟨[97], true, [99]⟩ [97] = true :=
  (C8_key_range ⟨[97], true, [99]⟩ ⟨[97], true, [99]⟩ [97]).2.2.2
    (Or.inr (by decide))

/-- Masking with the field mask `(2 ^ m - 1) * 2 ^ k` extracts the bit
field `v / 2 ^ k % 2 ^ m` of `v`, left in place at position `k`. -/
theorem land_field (v k m : Nat) :
    v &&& (2 ^ m - 1) * 2 ^ k = v / 2 ^ k % 2 ^ m * 2 ^ k := by
  apply Nat.eq_of_testBit_eq
  intro i
  rw [Nat.testBit_land, ← Nat.shiftLeft_eq (2 ^ m - 1) k,
    ← Nat.shiftLeft_eq (v / 2 ^ k % 2 ^ m) k, Nat.testBit_shiftLeft,
    Nat.testBit_shiftLeft, Nat.testBit_mod_two_pow,
    ← Nat.shiftRight_eq_div_pow, Nat.testBit_shiftRight,
    Nat.testBit_two_pow_sub_one]
  rcases Nat.lt_or_ge i k with h | h
  · have h1 : ¬ (i ≥ k) := Nat.not_le.mpr h
    simp [h1]
  · have h2 : k + (i - k) = i := by omega
    simp only [h2, decide_eq_true h, Bool.true_and]
    cases hb : v.testBit i <;> simp [hb]

/-- A value below `2 ^ k` ors with a multiple of `2 ^ k` by addition. -/
theorem lor_low_high {a : Nat} (k : Nat) (b : Nat) (h : a < 2 ^ k) :
    a ||| b * 2 ^ k = a + b * 2 ^ k := by
  rw [Nat.lor_comm, Nat.mul_comm b (2 ^ k), ← Nat.mul_add_lt_is_or h b,
    Nat.add_comm]

/-- `Version` is the bit field in bits 4..63: `v / 16 % 2 ^ 60`. -/
theorem Version_arith (v : Nat) :
    logical_node.Version v = v / 16 % 2 ^ 60 := by
  unfold logical_node.Version logical_node.HDR_VERSION_SHIFT
  rw [show logical_node.HDR_VERSION_MASK = (2 ^ 60 - 1) * 2 ^ 4 from by
    decide]
  rw [land_field, Nat.shiftRight_eq_div_pow,
    Nat.mul_div_cancel _ (by norm_num : 0 < 2 ^ 4)]
  norm_num

/-- `IsLocked` reads bit 0. -/
theorem IsLocked_arith (v : Nat) :
    logical_node.IsLocked v = decide (v % 2 = 1) := by
  unfold logical_node.IsLocked logical_node.HDR_LOCKED_MASK
  rw [Nat.and_one_is_mod]
  rcases Nat.mod_two_eq_zero_or_one v with h | h <;> rw [h] <;> rfl

/-- `IsDeleting` reads bit 1. -/
theorem IsDeleting_arith (v : Nat) :
    logical_node.IsDeleting v = decide (v / 2 % 2 = 1) := by
  unfold logical_node.IsDeleting logical_node.HDR_DELETING_MASK
  rw [show (1 <<< 1 : Nat) = (2 ^ 1 - 1) * 2 ^ 1 from rfl, land_field]
  norm_num
  rcases Nat.mod_two_eq_zero_or_one (v / 2) with h | h <;> rw [h] <;> rfl

/-- `IsEnqueued` reads bit 2. -/
theorem IsEnqueued_arith (v : Nat) :
    logical_node.IsEnqueued v = decide (v / 4 % 2 = 1) := by
  unfold logical_node.IsEnqueued logical_node.HDR_ENQUEUED_MASK
  rw [show (1 <<< 2 : Nat) = (2 ^ 1 - 1) * 2 ^ 2 from rfl, land_field]
  norm_num
  rcases Nat.mod_two_eq_zero_or_one (v / 4) with h | h <;> rw [h] <;> rfl

/-- `IsLatest` reads bit 3. -/
theorem IsLatest_arith (v : Nat) :
    logical_node.IsLatest v = decide (v / 8 % 2 = 1) := by
  unfold logical_node.IsLatest logical_node.HDR_LATEST_MASK
  rw [show (1 <<< 3 : Nat) = (2 ^ 1 - 1) * 2 ^ 3 from rfl, land_field]
  norm_num
  rcases Nat.mod_two_eq_zero_or_one (v / 8) with h | h <;> rw [h] <;> rfl

/-- Arithmetic normal form of `unlock`: the low four header bits survive
with bit 0 cleared, and the version field is incremented modulo
`2 ^ 60`. -/
theorem unlock_arith (v : Nat) :
    logical_node.unlock v =
      2 * (v % 16 / 2) + (v / 16 % 2 ^ 60 + 1) % 2 ^ 60 * 16 := by
  have hz : logical_node.unlock v =
      (v &&& compl64 logical_node.HDR_VERSION_MASK |||
        ((logical_node.Version v + 1) <<< 4) % 2 ^ 64 &&&
          logical_node.HDR_VERSION_MASK) &&&
        compl64 logical_node.HDR_LOCKED_MASK := rfl
  rw [hz, Version_arith]
  rw [show compl64 logical_node.HDR_VERSION_MASK = 2 ^ 4 - 1 from by decide]
  rw [Nat.and_pow_two_sub_one_eq_mod]
  rw [show logical_node.HDR_VERSION_MASK = (2 ^ 60 - 1) * 2 ^ 4 from by
    decide]
  rw [Nat.shiftLeft_eq, show (2 : Nat) ^ 64 = 2 ^ 60 * 2 ^ 4 from by
    norm_num]
  rw [Nat.mul_mod_mul_right, land_field,
    Nat.mul_div_cancel _ (by norm_num : 0 < 2 ^ 4), Nat.mod_mod_of_dvd _
    (dvd_refl _)]
  rw [show compl64 logical_node.HDR_LOCKED_MASK = (2 ^ 63 - 1) * 2 ^ 1
    from by decide]
  rw [land_field]
  have hm : (v / 16 % 2 ^ 60 + 1) % 2 ^ 60 < 2 ^ 60 :=
    Nat.mod_lt _ (by norm_num)
  have ha : v % 2 ^ 4 < 2 ^ 4 := Nat.mod_lt _ (by norm_num)
  rw [lor_low_high 4 _ ha]
  generalize hM : (v / 16 % 2 ^ 60 + 1) % 2 ^ 60 = M at hm ⊢
  have h60 : (2 : Nat) ^ 60 = 1152921504606846976 := by norm_num
  have h63 : (2 : Nat) ^ 63 = 9223372036854775808 := by norm_num
  have h4 : (2 : Nat) ^ 4 = 16 := by norm_num
  have h1 : (2 : Nat) ^ 1 = 2 := by norm_num
  rw [h60] at hm
  rw [h63, h4, h1]
  omega

/-- C6, counterexample to the claim as stated: on the locked header whose
VERSION field is `2 ^ 60 - 1`, `unlock()` wraps the VERSION field to 0,
so VERSION decreases across this lock/unlock cycle. -/
theorem C6_counterexample :
    logical_node.IsLocked (16 * (2 ^ 60 - 1) + 1) = true ∧
    logical_node.Version (logical_node.unlock (16 * (2 ^ 60 - 1) + 1)) <
      logical_node.Version (16 * (2 ^ 60 - 1) + 1) := by decide

/-- C6 as amended: for every 64-bit header word with LOCKED set,
`unlock()` clears LOCKED, leaves DELETING, ENQUEUED and LATEST unchanged,
and sets the 60-bit VERSION field (bits 4..63) to the old VERSION plus
one modulo `2 ^ 60`; consequently VERSION grows across every
lock/unlock cycle except when the old VERSION is `2 ^ 60 - 1`, where it
wraps to 0. -/
theorem C6_unlock (v : Nat) (h64 : v < 2 ^ 64)
    (hl : logical_node.IsLocked v = true) :
    logical_node.IsLocked (logical_node.unlock v) = false ∧
    logical_node.IsDeleting (logical_node.unlock v) =
      logical_node.IsDeleting v ∧
    logical_node.IsEnqueued (logical_node.unlock v) =
      logical_node.IsEnqueued v ∧
    logical_node.IsLatest (logical_node.unlock v) =
      logical_node.IsLatest v ∧
    logical_node.Version (logical_node.unlock v) =
      (logical_node.Version v + 1) % 2 ^ 60 ∧
    (logical_node.Version v + 1 < 2 ^ 60 →
      logical_node.Version v <
        logical_node.Version (logical_node.unlock v)) := by
  simp only [unlock_arith, IsLocked_arith, IsDeleting_arith,
    IsEnqueued_arith, IsLatest_arith, Version_arith, decide_eq_decide,
    decide_eq_false_iff_not]
  have h60 : (2 : Nat) ^ 60 = 1152921504606846976 := by norm_num
  simp only [h60]
  omega

/-- Witness for C6: the amended theorem applied to the locked header 17
(VERSION 1, all other flag bits clear). -/
theorem C6_witness :
    logical_node.IsLocked (logical_node.unlock 17) = false ∧
    logical_node.IsDeleting (logical_node.unlock 17) =
      logical_node.IsDeleting 17 ∧
    logical_node.IsEnqueued (logical_node.unlock 17) =
      logical_node.IsEnqueued 17 ∧
    logical_node.IsLatest (logical_node.unlock 17) =
      logical_node.IsLatest 17 ∧
    logical_node.Version (logical_node.unlock 17) =
      (logical_node.Version 17 + 1) % 2 ^ 60 ∧
    (logical_node.Version 17 + 1 < 2 ^ 60 →
      logical_node.Version 17 <
        logical_node.Version (logical_node.unlock 17)) :=
  C6_unlock 17 (by norm_num) (by decide)

/-- `IsDeleting` is bit 1 of the header. -/
theorem IsDeleting_testBit (v : Nat) :
    logical_node.IsDeleting v = v.testBit 1 := by
  rw [IsDeleting_arith, Nat.testBit_to_div_mod]

/-- `IsEnqueued` is bit 2 of the header. -/
theorem IsEnqueued_testBit (v : Nat) :
    logical_node.IsEnqueued v = v.testBit 2 := by
  rw [IsEnqueued_arith, Nat.testBit_to_div_mod]

/-- Setting a single bit only changes that bit. -/
theorem or_mask_testBit (v i j : Nat) :
    (v ||| 2 ^ i).testBit j = (v.testBit j || decide (i = j)) := by
  simp [Nat.testBit_lor, Nat.testBit_two_pow]

/-- Clearing a single bit of a word leaves the other low-64 bits. -/
theorem and_compl_mask_testBit (v i j : Nat) (hj : j < 64) (hne : i ≠ j) :
    (v &&& compl64 (2 ^ i)).testBit j = v.testBit j := by
  unfold compl64
  rw [Nat.testBit_land, Nat.testBit_xor, Nat.testBit_two_pow_sub_one,
    Nat.testBit_two_pow_of_ne hne, decide_eq_true hj]
  cases hb : v.testBit j <;> rfl

/-- Clearing a single bit clears it. -/
theorem and_compl_clear (v i : Nat) (hi : i < 64) :
    (v &&& compl64 (2 ^ i)).testBit i = false := by
  unfold compl64
  rw [Nat.testBit_land, Nat.testBit_xor, Nat.testBit_two_pow_sub_one,
    Nat.testBit_two_pow_self, decide_eq_true hi]
  cases hb : v.testBit i <;> rfl

/-- `lock` does not touch the DELETING bit. -/
theorem IsDeleting_lock (v : Nat) :
    logical_node.IsDeleting (logical_node.lock v) =
      logical_node.IsDeleting v := by
  rw [IsDeleting_testBit, IsDeleting_testBit,
    show logical_node.lock v = v ||| 2 ^ 0 from rfl, or_mask_testBit]
  simp

/-- `lock` does not touch the ENQUEUED bit. -/
theorem IsEnqueued_lock (v : Nat) :
    logical_node.IsEnqueued (logical_node.lock v) =
      logical_node.IsEnqueued v := by
  rw [IsEnqueued_testBit, IsEnqueued_testBit,
    show logical_node.lock v = v ||| 2 ^ 0 from rfl, or_mask_testBit]
  simp

/-- `unlock` does not touch the DELETING bit. -/
theorem IsDeleting_unlock (v : Nat) :
    logical_node.IsDeleting (logical_node.unlock v) =
      logical_node.IsDeleting v := by
  rw [IsDeleting_arith, IsDeleting_arith, unlock_arith, decide_eq_decide]
  have h60 : (2 : Nat) ^ 60 = 1152921504606846976 := by norm_num
  rw [h60]
  omega

/-- `unlock` does not touch the ENQUEUED bit. -/
theorem IsEnqueued_unlock (v : Nat) :
    logical_node.IsEnqueued (logical_node.unlock v) =
      logical_node.IsEnqueued v := by
  rw [IsEnqueued_arith, IsEnqueued_arith, unlock_arith, decide_eq_decide]
  have h60 : (2 : Nat) ^ 60 = 1152921504606846976 := by norm_num
  rw [h60]
  omega

/-- `mark_deleting` sets the DELETING bit. -/
theorem IsDeleting_mark_deleting (v : Nat) :
    logical_node.IsDeleting (logical_node.mark_deleting v) = true := by
  rw [IsDeleting_testBit,
    show logical_node.mark_deleting v = v ||| 2 ^ 1 from rfl,
    or_mask_testBit]
  simp

/-- `mark_deleting` does not touch the ENQUEUED bit. -/
theorem IsEnqueued_mark_deleting (v : Nat) :
    logical_node.IsEnqueued (logical_node.mark_deleting v) =
      logical_node.IsEnqueued v := by
  rw [IsEnqueued_testBit, IsEnqueued_testBit,
    show logical_node.mark_deleting v = v ||| 2 ^ 1 from rfl,
    or_mask_testBit]
  simp

/-- `set_enqueued` does not touch the DELETING bit. -/
theorem IsDeleting_set_enqueued (b : Bool) (v : Nat) :
    logical_node.IsDeleting (logical_node.set_enqueued b v) =
      logical_node.IsDeleting v := by
  cases b
  · rw [IsDeleting_testBit, IsDeleting_testBit,
      show logical_node.set_enqueued false v = v &&& compl64 (2 ^ 2)
        from rfl,
      and_compl_mask_testBit v 2 1 (by norm_num) (by norm_num)]
  · rw [IsDeleting_testBit, IsDeleting_testBit,
      show logical_node.set_enqueued true v = v ||| 2 ^ 2 from rfl,
      or_mask_testBit]
    simp

/-- `set_enqueued b` sets the ENQUEUED bit to `b`. -/
theorem IsEnqueued_set_enqueued (b : Bool) (v : Nat) :
    logical_node.IsEnqueued (logical_node.set_enqueued b v) = b := by
  cases b
  · rw [IsEnqueued_testBit,
      show logical_node.set_enqueued false v = v &&& compl64 (2 ^ 2)
        from rfl,
      and_compl_clear v 2 (by norm_num)]
  · rw [IsEnqueued_testBit,
      show logical_node.set_enqueued true v = v ||| 2 ^ 2 from rfl,
      or_mask_testBit]
    simp

/-- `set_latest` does not touch the DELETING bit. -/
theorem IsDeleting_set_latest (b : Bool) (v : Nat) :
    logical_node.IsDeleting (logical_node.set_latest b v) =
      logical_node.IsDeleting v := by
  cases b
  · rw [IsDeleting_testBit, IsDeleting_testBit,
      show logical_node.set_latest false v = v &&& compl64 (2 ^ 3)
        from rfl,
      and_compl_mask_testBit v 3 1 (by norm_num) (by norm_num)]
  · rw [IsDeleting_testBit, IsDeleting_testBit,
      show logical_node.set_latest true v = v ||| 2 ^ 3 from rfl,
      or_mask_testBit]
    simp

/-- `set_latest` does not touch the ENQUEUED bit. -/
theorem IsEnqueued_set_latest (b : Bool) (v : Nat) :
    logical_node.IsEnqueued (logical_node.set_latest b v) =
      logical_node.IsEnqueued v := by
  cases b
  · rw [IsEnqueued_testBit, IsEnqueued_testBit,
      show logical_node.set_latest false v = v &&& compl64 (2 ^ 3)
        from rfl,
      and_compl_mask_testBit v 3 2 (by norm_num) (by norm_num)]
  · rw [IsEnqueued_testBit, IsEnqueued_testBit,
      show logical_node.set_latest true v = v ||| 2 ^ 3 from rfl,
      or_mask_testBit]
    simp

/-- Header words reachable from a freshly constructed cell (the private
constructors at txn.h lines 179-196 start with `hdr = HDR_LATEST_MASK` or
`hdr = set_latest ? HDR_LATEST_MASK : 0`) by any sequence of the header
operations, each applied only when its stated preconditions (the
INVARIANT assertions; for `lock`, the success condition of the
compare-and-swap) hold. -/
inductive hdr_reachable : Nat → Prop where
  | fresh_latest : hdr_reachable logical_node.HDR_LATEST_MASK
  | fresh_plain : hdr_reachable 0
  | lock {v} : hdr_reachable v → logical_node.IsLocked v = false →
      hdr_reachable (logical_node.lock v)
  | unlock {v} : hdr_reachable v → logical_node.IsLocked v = true →
      hdr_reachable (logical_node.unlock v)
  | mark_deleting {v} : hdr_reachable v →
      logical_node.IsLocked v = true →
      logical_node.IsEnqueued v = false →
      logical_node.IsDeleting v = false →
      hdr_reachable (logical_node.mark_deleting v)
  | set_enqueued {v} (b : Bool) : hdr_reachable v →
      logical_node.IsLocked v = true →
      logical_node.IsDeleting v = false →
      hdr_reachable (logical_node.set_enqueued b v)
  | set_latest {v} (b : Bool) : hdr_reachable v →
      logical_node.IsLocked v = true →
      hdr_reachable (logical_node.set_latest b v)

/-- C7: starting from a freshly constructed cell, every sequence of
`lock`, `unlock`, `mark_deleting`, `set_enqueued` and `set_latest` calls
that respects each operation's preconditions never produces a header with
both DELETING and ENQUEUED set. -/
theorem C7_deleting_enqueued_exclusive (v : Nat) (h : hdr_reachable v) :
    ¬(logical_node.IsDeleting v = true ∧
      logical_node.IsEnqueued v = true) := by
  induction h with
  | fresh_latest => decide
  | fresh_plain => decide
  | lock hr hl ih =>
    rw [IsDeleting_lock, IsEnqueued_lock]
    exact ih
  | unlock hr hl ih =>
    rw [IsDeleting_unlock, IsEnqueued_unlock]
    exact ih
  | mark_deleting hr hl henq hdel ih =>
    rw [IsDeleting_mark_deleting, IsEnqueued_mark_deleting]
    simp [henq]
  | set_enqueued b hr hl hdel ih =>
    rw [IsDeleting_set_enqueued, IsEnqueued_set_enqueued]
    simp [hdel]
  | set_latest b hr hl ih =>
    rw [IsDeleting_set_latest, IsEnqueued_set_latest]
    exact ih

/-- Witness for C7: the header 11 (locked, deleting, latest) reached by
lock then mark_deleting from a fresh latest cell. -/
theorem C7_witness :
    ¬(logical_node.IsDeleting 11 = true ∧
      logical_node.IsEnqueued 11 = true) :=
  C7_deleting_enqueued_exclusive 11
    (hdr_reachable.mark_deleting
      (hdr_reachable.lock hdr_reachable.fresh_latest (by decide))
      (by decide) (by decide) (by decide))

/-- Dividing one less than a multiple: `(A * B - 1) % B = B - 1`. -/
theorem mul_sub_one_mod (A B : Nat) (hA : 0 < A) (hB : 0 < B) :
    (A * B - 1) % B = B - 1 := by
  rcases A with _ | a
  · omega
  · rw [Nat.succ_mul, Nat.add_sub_assoc hB, Nat.mul_comm a B,
      Nat.mul_add_mod]
    exact Nat.mod_eq_of_lt (by omega)

/-- `NumIdMask` in arithmetic form: the 27-bit field at position
`CoreBits`. -/
theorem NumIdMask_arith (cb : Nat) (h : cb + 27 ≤ 64) :
    transaction_proto2.NumIdMask cb = (2 ^ 27 - 1) * 2 ^ cb := by
  unfold transaction_proto2.NumIdMask transaction_proto2.NumIdShift
  rw [show ((1 <<< 27 : Nat) - 1) = 2 ^ 27 - 1 from rfl, Nat.shiftLeft_eq]
  apply Nat.mod_eq_of_lt
  calc (2 ^ 27 - 1) * 2 ^ cb < 2 ^ 27 * 2 ^ cb :=
        (Nat.mul_lt_mul_right (Nat.two_pow_pos cb)).mpr (by norm_num)
    _ = 2 ^ (27 + cb) := by rw [Nat.pow_add]
    _ ≤ 2 ^ 64 := Nat.pow_le_pow_right (by norm_num) (by omega)

/-- `EpochMask` in arithmetic form: the top `64 - (CoreBits + 27)` bits,
a field at position `CoreBits + 27`. -/
theorem EpochMask_arith (cb : Nat) (h : cb + 27 ≤ 64) :
    transaction_proto2.EpochMask cb =
      (2 ^ (64 - (cb + 27)) - 1) * 2 ^ (cb + 27) := by
  unfold transaction_proto2.EpochMask transaction_proto2.EpochShift
    transaction_proto2.NumIdShift
  rw [Nat.shiftLeft_eq]
  have hsplit : (2 : Nat) ^ 64 = 2 ^ (64 - (cb + 27)) * 2 ^ (cb + 27) := by
    rw [← Nat.pow_add]
    congr 1
    omega
  calc ((2 ^ 64 - 1) * 2 ^ (cb + 27)) % 2 ^ 64
      = ((2 ^ 64 - 1) * 2 ^ (cb + 27)) %
          (2 ^ (64 - (cb + 27)) * 2 ^ (cb + 27)) := by rw [← hsplit]
    _ = ((2 ^ 64 - 1) % 2 ^ (64 - (cb + 27))) * 2 ^ (cb + 27) :=
          Nat.mul_mod_mul_right _ _ _
    _ = (2 ^ (64 - (cb + 27)) - 1) * 2 ^ (cb + 27) := by
          rw [show (2 : Nat) ^ 64 - 1 =
              2 ^ (cb + 27) * 2 ^ (64 - (cb + 27)) - 1 from by
            rw [Nat.mul_comm, ← hsplit]]
          rw [mul_sub_one_mod _ _ (Nat.two_pow_pos _) (Nat.two_pow_pos _)]

/-- `CoreId` extracts the low `CoreBits` bits. -/
theorem CoreId_arith (cb v : Nat) :
    transaction_proto2.CoreId cb v = v % 2 ^ cb := by
  unfold transaction_proto2.CoreId transaction_proto2.CoreMask
    transaction_proto2.NMaxCores
  exact Nat.and_pow_two_sub_one_eq_mod v cb

/-- `NumId` extracts the 27-bit field at position `CoreBits`. -/
theorem NumId_arith (cb v : Nat) (h : cb + 27 ≤ 64) :
    transaction_proto2.NumId cb v = v / 2 ^ cb % 2 ^ 27 := by
  unfold transaction_proto2.NumId transaction_proto2.NumIdShift
  rw [NumIdMask_arith cb h, land_field, Nat.shiftRight_eq_div_pow,
    Nat.mul_div_cancel _ (Nat.two_pow_pos cb)]

/-- `EpochId` extracts the field at position `CoreBits + 27`. -/
theorem EpochId_arith (cb v : Nat) (h : cb + 27 ≤ 64) :
    transaction_proto2.EpochId cb v =
      v / 2 ^ (cb + 27) % 2 ^ (64 - (cb + 27)) := by
  unfold transaction_proto2.EpochId transaction_proto2.EpochShift
    transaction_proto2.NumIdShift
  rw [EpochMask_arith cb h, land_field, Nat.shiftRight_eq_div_pow,
    Nat.mul_div_cancel _ (Nat.two_pow_pos _)]

/-- Core and num fields together stay below `2 ^ (CoreBits + 27)`. -/
theorem low_two_fields_lt (cb c n : Nat) (hc : c < 2 ^ cb)
    (hn : n < 2 ^ 27) : c + n * 2 ^ cb < 2 ^ (cb + 27) := by
  have hstep : c + n * 2 ^ cb < (n + 1) * 2 ^ cb := by
    rw [Nat.succ_mul, Nat.add_comm c]
    exact Nat.add_lt_add_left hc _
  calc c + n * 2 ^ cb < (n + 1) * 2 ^ cb := hstep
    _ ≤ 2 ^ 27 * 2 ^ cb := Nat.mul_le_mul_right _ hn
    _ = 2 ^ (cb + 27) := by rw [← Nat.pow_add, Nat.add_comm]

/-- `MakeTid` in arithmetic form when the three fields are in range: the
fields are packed without interference. -/
theorem MakeTid_arith (cb c n e : Nat) (hcb : cb + 27 ≤ 64)
    (hc : c < 2 ^ cb) (hn : n < 2 ^ 27)
    (he : e < 2 ^ (64 - (cb + 27))) :
    transaction_proto2.MakeTid cb c n e =
      c + n * 2 ^ cb + e * 2 ^ (cb + 27) := by
  unfold transaction_proto2.MakeTid transaction_proto2.EpochShift
    transaction_proto2.NumIdShift
  rw [Nat.shiftLeft_eq, Nat.shiftLeft_eq]
  have hsplit : (2 : Nat) ^ 64 =
      2 ^ (64 - (cb + 27)) * 2 ^ (cb + 27) := by
    rw [← Nat.pow_add]
    congr 1
    omega
  have hn1 : n * 2 ^ cb < 2 ^ (cb + 27) := by
    calc n * 2 ^ cb < 2 ^ 27 * 2 ^ cb :=
          (Nat.mul_lt_mul_right (Nat.two_pow_pos cb)).mpr hn
      _ = 2 ^ (cb + 27) := by rw [← Nat.pow_add, Nat.add_comm]
  have h1 : n * 2 ^ cb < 2 ^ 64 :=
    Nat.lt_of_lt_of_le hn1 (Nat.pow_le_pow_right (by norm_num) (by omega))
  have h2 : e * 2 ^ (cb + 27) < 2 ^ 64 := by
    rw [hsplit]
    exact (Nat.mul_lt_mul_right (Nat.two_pow_pos _)).mpr he
  rw [Nat.mod_eq_of_lt h1, Nat.mod_eq_of_lt h2, lor_low_high cb n hc]
  have h3 : c + n * 2 ^ cb < 2 ^ (cb + 27) := low_two_fields_lt cb c n hc hn
  rw [lor_low_high (cb + 27) e h3]
  apply Nat.mod_eq_of_lt
  have hstep3 : c + n * 2 ^ cb + e * 2 ^ (cb + 27) <
      (e + 1) * 2 ^ (cb + 27) := by
    rw [Nat.succ_mul, Nat.add_comm (c + n * 2 ^ cb)]
    exact Nat.add_lt_add_left h3 _
  calc c + n * 2 ^ cb + e * 2 ^ (cb + 27) < (e + 1) * 2 ^ (cb + 27) :=
        hstep3
    _ ≤ 2 ^ (64 - (cb + 27)) * 2 ^ (cb + 27) := Nat.mul_le_mul_right _ he
    _ = 2 ^ 64 := hsplit.symm

/-- C4, counterexample to the claim as stated: with the core field
occupying bits 0..10 (the layout comment in the source, `CoreBits = 10`),
the code's `EpochId` is the field above bit 37, not the top 37 bits: on
the TID `2 ^ 27` the top-37-bit reading prescribed by the spec gives
epoch 1 while the code gives epoch 0. -/
theorem C4_counterexample :
    transaction_proto2.EpochId 10 (2 ^ 27) = 0 ∧
    transaction_proto2.EpochIdSpecTop37 (2 ^ 27) = 1 := by decide

/-- C4 as amended: for `CoreBits + 27 <= 64` and every 64-bit TID `v`,
`CoreId` extracts the low `CoreBits` bits, `NumId` the 27-bit field above
them, and `EpochId` the remaining top `64 - CoreBits - 27` bits, i.e.
`EpochId(v) = v >> (CoreBits + 27)`; the epoch field is `64 - CoreBits -
27` bits wide (not 37), and `2 ^ CoreBits >= NMaxCores` holds. -/
theorem C4_tid_layout (CoreBits v : Nat) (hcb : CoreBits + 27 ≤ 64)
    (hv : v < 2 ^ 64) :
    transaction_proto2.CoreId CoreBits v = v % 2 ^ CoreBits ∧
    transaction_proto2.NumId CoreBits v = v / 2 ^ CoreBits % 2 ^ 27 ∧
    transaction_proto2.EpochId CoreBits v = v / 2 ^ (CoreBits + 27) ∧
    transaction_proto2.EpochMask CoreBits =
      (2 ^ (64 - (CoreBits + 27)) - 1) * 2 ^ (CoreBits + 27) ∧
    transaction_proto2.NMaxCores CoreBits ≤ 2 ^ CoreBits := by
  refine ⟨CoreId_arith _ _, NumId_arith _ _ hcb, ?_,
    EpochMask_arith _ hcb, Nat.le_refl _⟩
  rw [EpochId_arith _ _ hcb]
  apply Nat.mod_eq_of_lt
  apply Nat.div_lt_of_lt_mul
  calc v < 2 ^ 64 := hv
    _ = 2 ^ (CoreBits + 27) * 2 ^ (64 - (CoreBits + 27)) := by
        rw [← Nat.pow_add]
        congr 1
        omega

/-- Witness for C4: the amended layout theorem at `CoreBits = 10` on the
TID `2 ^ 27`. -/
theorem C4_witness :
    transaction_proto2.CoreId 10 (2 ^ 27) = 2 ^ 27 % 2 ^ 10 ∧
    transaction_proto2.NumId 10 (2 ^ 27) = 2 ^ 27 / 2 ^ 10 % 2 ^ 27 ∧
    transaction_proto2.EpochId 10 (2 ^ 27) = 2 ^ 27 / 2 ^ (10 + 27) ∧
    transaction_proto2.EpochMask 10 =
      (2 ^ (64 - (10 + 27)) - 1) * 2 ^ (10 + 27) ∧
    transaction_proto2.NMaxCores 10 ≤ 2 ^ 10 :=
  C4_tid_layout 10 (2 ^ 27) (by norm_num) (by norm_num)

/-- C10: `MakeTid` and the extractors round-trip on in-range fields, and
the three masks are pairwise disjoint and together cover all 64 bits (the
`_static_assert`s of `MakeTid`). -/
theorem C10_make_tid (CoreBits core_id num_id epoch_id : Nat)
    (hcb : CoreBits + 27 ≤ 64)
    (hc : core_id < transaction_proto2.NMaxCores CoreBits)
    (hn : num_id < 2 ^ 27)
    (he : epoch_id < 2 ^ (64 - CoreBits - 27)) :
    transaction_proto2.CoreId CoreBits
        (transaction_proto2.MakeTid CoreBits core_id num_id epoch_id) =
      core_id ∧
    transaction_proto2.NumId CoreBits
        (transaction_proto2.MakeTid CoreBits core_id num_id epoch_id) =
      num_id ∧
    transaction_proto2.EpochId CoreBits
        (transaction_proto2.MakeTid CoreBits core_id num_id epoch_id) =
      epoch_id ∧
    transaction_proto2.CoreMask CoreBits &&&
      transaction_proto2.NumIdMask CoreBits = 0 ∧
    transaction_proto2.NumIdMask CoreBits &&&
      transaction_proto2.EpochMask CoreBits = 0 ∧
    transaction_proto2.CoreMask CoreBits &&&
      transaction_proto2.EpochMask CoreBits = 0 ∧
    (transaction_proto2.CoreMask CoreBits |||
      transaction_proto2.NumIdMask CoreBits |||
      transaction_proto2.EpochMask CoreBits) = 2 ^ 64 - 1 := by
  have hc2 : core_id < 2 ^ CoreBits := hc
  have he2 : epoch_id < 2 ^ (64 - (CoreBits + 27)) := by
    rwa [Nat.sub_sub] at he
  have hM := MakeTid_arith CoreBits core_id num_id epoch_id hcb hc2 hn he2
  have hfactor : core_id + num_id * 2 ^ CoreBits +
      epoch_id * 2 ^ (CoreBits + 27) =
      core_id + (num_id + epoch_id * 2 ^ 27) * 2 ^ CoreBits := by
    rw [Nat.pow_add]
    ring
  have hlow := low_two_fields_lt CoreBits core_id num_id hc2 hn
  refine ⟨?_, ?_, ?_, ?_, ?_, ?_, ?_⟩
  · rw [CoreId_arith, hM, hfactor, Nat.add_mul_mod_self_right,
      Nat.mod_eq_of_lt hc2]
  · rw [NumId_arith _ _ hcb, hM, hfactor,
      Nat.add_mul_div_right _ _ (Nat.two_pow_pos CoreBits),
      Nat.div_eq_of_lt hc2, Nat.zero_add, Nat.add_mul_mod_self_right,
      Nat.mod_eq_of_lt hn]
  · rw [EpochId_arith _ _ hcb, hM,
      Nat.add_mul_div_right _ _ (Nat.two_pow_pos (CoreBits + 27)),
      Nat.div_eq_of_lt hlow, Nat.zero_add, Nat.mod_eq_of_lt he2]
  · unfold transaction_proto2.CoreMask transaction_proto2.NMaxCores
    rw [NumIdMask_arith _ hcb, land_field,
      Nat.div_eq_of_lt (Nat.sub_lt (Nat.two_pow_pos CoreBits)
        Nat.one_pos)]
    simp
  · rw [NumIdMask_arith _ hcb, EpochMask_arith _ hcb, land_field,
      Nat.div_eq_of_lt ?hlt]
    · simp
    case hlt =>
      have h0 := low_two_fields_lt CoreBits 0 (2 ^ 27 - 1)
        (Nat.two_pow_pos CoreBits)
        (Nat.sub_lt (Nat.two_pow_pos 27) Nat.one_pos)
      simpa using h0
  · unfold transaction_proto2.CoreMask transaction_proto2.NMaxCores
    rw [EpochMask_arith _ hcb, land_field, Nat.div_eq_of_lt ?hlt2]
    · simp
    case hlt2 =>
      calc 2 ^ CoreBits - 1 < 2 ^ CoreBits :=
            Nat.sub_lt (Nat.two_pow_pos CoreBits) Nat.one_pos
        _ ≤ 2 ^ (CoreBits + 27) :=
            Nat.pow_le_pow_right (by norm_num) (by omega)
  · unfold transaction_proto2.CoreMask transaction_proto2.NMaxCores
    rw [NumIdMask_arith _ hcb, EpochMask_arith _ hcb,
      lor_low_high CoreBits _ (Nat.sub_lt (Nat.two_pow_pos CoreBits)
        Nat.one_pos)]
    have hsum1 : 2 ^ CoreBits - 1 + (2 ^ 27 - 1) * 2 ^ CoreBits =
        2 ^ (CoreBits + 27) - 1 := by
      rw [Nat.sub_mul, Nat.one_mul,
        show (2 : Nat) ^ 27 * 2 ^ CoreBits = 2 ^ (CoreBits + 27) from by
          rw [← Nat.pow_add, Nat.add_comm]]
      have h3 := Nat.two_pow_pos CoreBits
      have h4 : (2 : Nat) ^ CoreBits ≤ 2 ^ (CoreBits + 27) :=
        Nat.pow_le_pow_right (by norm_num) (by omega)
      generalize hX : (2 : Nat) ^ CoreBits = X at h3 h4 ⊢
      generalize hY : (2 : Nat) ^ (CoreBits + 27) = Y at h4 ⊢
      omega
    rw [hsum1, lor_low_high (CoreBits + 27) _
      (Nat.sub_lt (Nat.two_pow_pos (CoreBits + 27)) Nat.one_pos)]
    rw [Nat.sub_mul, Nat.one_mul,
      show (2 : Nat) ^ (64 - (CoreBits + 27)) * 2 ^ (CoreBits + 27) =
          2 ^ 64 from by
        rw [← Nat.pow_add, Nat.sub_add_cancel hcb]]
    have h5 := Nat.two_pow_pos (CoreBits + 27)
    have h6 : (2 : Nat) ^ (CoreBits + 27) ≤ 2 ^ 64 :=
      Nat.pow_le_pow_right (by norm_num) (by omega)
    have h7 : (2 : Nat) ^ 64 = 18446744073709551616 := by norm_num
    generalize hY : (2 : Nat) ^ (CoreBits + 27) = Y at h5 h6 ⊢
    rw [h7] at h6 ⊢
    omega

/-- Witness for C10: the round-trip theorem at `CoreBits = 10` with
core 3, num 5, epoch 7. -/
theorem C10_witness :
    transaction_proto2.CoreId 10
        (transaction_proto2.MakeTid 10 3 5 7) = 3 ∧
    transaction_proto2.NumId 10
        (transaction_proto2.MakeTid 10 3 5 7) = 5 ∧
    transaction_proto2.EpochId 10
        (transaction_proto2.MakeTid 10 3 5 7) = 7 ∧
    transaction_proto2.CoreMask 10 &&&
      transaction_proto2.NumIdMask 10 = 0 ∧
    transaction_proto2.NumIdMask 10 &&&
      transaction_proto2.EpochMask 10 = 0 ∧
    transaction_proto2.CoreMask 10 &&&
      transaction_proto2.EpochMask 10 = 0 ∧
    (transaction_proto2.CoreMask 10 |||
      transaction_proto2.NumIdMask 10 |||
      transaction_proto2.EpochMask 10) = 2 ^ 64 - 1 :=
  C10_make_tid 10 3 5 7 (by norm_num) (by decide) (by decide) (by decide)

/-- Characterization of `record_at` with `require_latest = false`: the
walk returns the tid and the first `size` payload bytes of the first cell
whose tid is at most `t`, and fails exactly when no cell qualifies. -/
theorem record_at_false_eq (t : Nat) (chain : List logical_node) :
    logical_node.record_at t chain false =
      (chain.find? (fun m => m.is_not_behind t)).map
        (fun m => (m.version, m.value_start.take m.size)) := by
  induction chain with
  | nil => rfl
  | cons n rest ih =>
    cases h : n.is_not_behind t
    · rw [List.find?_cons_of_neg _ (by simp [h])]
      simp only [logical_node.record_at, h]
      simpa using ih
    · rw [List.find?_cons_of_pos _ (by simp [h])]
      simp [logical_node.record_at, h]

/-- C1: on an unlocked finite chain, `stable_read(t)` succeeds exactly
when some cell of the chain has tid at most `t` — except that when the
entry cell itself qualifies but no longer carries the LATEST bit in the
captured stable version, the read fails — and on success it copies the
tid and the first `size` payload bytes of the newest (first-encountered)
qualifying cell; cells after the entry cell are walked with
`require_latest = false`, so they need not be LATEST. -/
theorem C1_stable_read (t : Nat) (n : logical_node)
    (rest : List logical_node)
    (hunlocked : ∀ m ∈ n :: rest, logical_node.IsLocked m.hdr = false) :
    logical_node.stable_read t n rest =
      if n.is_not_behind t then
        (if logical_node.IsLatest n.hdr then
          some (n.version, n.value_start.take n.size)
        else none)
      else
        (rest.find? (fun m => m.is_not_behind t)).map
          (fun m => (m.version, m.value_start.take m.size)) := by
  unfold logical_node.stable_read
  cases h : n.is_not_behind t
  · simp only [logical_node.record_at, h]
    simpa using record_at_false_eq t rest
  · cases hl : logical_node.IsLatest n.hdr
    · simp [logical_node.record_at, h, hl]
    · simp [logical_node.record_at, h, hl]

/-- Witness for C1: a two-cell unlocked chain whose entry cell (tid 9,
LATEST) is newer than the read timestamp 5, so the read returns the
ancestor's tid 3 and payload. -/
theorem C1_witness :
    logical_node.stable_read 5 ⟨8, 9, 1, 16, [7]⟩
        [⟨0, 3, 2, 16, [1, 2]⟩] = some (3, [1, 2]) :=
  (C1_stable_read 5 ⟨8, 9, 1, 16, [7]⟩ [⟨0, 3, 2, 16, [1, 2]⟩]
    (by decide)).trans (by decide)

/-- C2: the spill branch of `write_record_at` (txn.h line 482) allocates
the spill cell with the NEW size `sz` — `alloc(version, &value_start[0],
sz, next, false)` — copying `sz` bytes of the old payload, not the old
cell's `size` bytes the spec requires.  On a locked LATEST cell of tid 5
holding the 3-byte payload 97,98,99 in a 16-byte buffer, a spill write of
the 1-byte payload 100 at tid 9 produces, as claimed, growth with no
replacement and the new payload in place, but the spill cell keeps only
1 byte (97) of the old 3-byte payload at the old tid 5, so a subsequent
`stable_read` at tid 5 returns `(5, 97)` instead of the old record
`(5, 97 98 99)`. -/
theorem C2_spill_uses_new_size :
    ((logical_node.write_record_at (fun _ _ => false) 9 [100] 1
      ⟨9, 5, 3, 16, [97, 98, 99, 0, 0, 0, 0, 0, 0, 0, 0, 0, 0, 0, 0, 0]⟩
      []).1 = true) ∧
    ((logical_node.write_record_at (fun _ _ => false) 9 [100] 1
      ⟨9, 5, 3, 16, [97, 98, 99, 0, 0, 0, 0, 0, 0, 0, 0, 0, 0, 0, 0, 0]⟩
      []).2.1 = none) ∧
    ((logical_node.write_record_at (fun _ _ => false) 9 [100] 1
      ⟨9, 5, 3, 16, [97, 98, 99, 0, 0, 0, 0, 0, 0, 0, 0, 0, 0, 0, 0, 0]⟩
      []).2.2.2.map logical_node.size = [1]) ∧
    logical_node.record_at 5
      ((logical_node.write_record_at (fun _ _ => false) 9 [100] 1
        ⟨9, 5, 3, 16, [97, 98, 99, 0, 0, 0, 0, 0, 0, 0, 0, 0, 0, 0, 0, 0]⟩
        []).2.2.1 ::
       (logical_node.write_record_at (fun _ _ => false) 9 [100] 1
        ⟨9, 5, 3, 16, [97, 98, 99, 0, 0, 0, 0, 0, 0, 0, 0, 0, 0, 0, 0, 0]⟩
        []).2.2.2) true = some (5, [97]) ∧
    (⟨9, 5, 3, 16, [97, 98, 99, 0, 0, 0, 0, 0, 0, 0, 0, 0, 0, 0, 0, 0]⟩ :
      logical_node).value_start.take 3 = [97, 98, 99] := by decide
